import Mathlib

/- Verification of the ee-client session, REST-retry and asset-enumeration
logic, shallowly embedded from the Python sources
src/eeclient/async_client.py, src/eeclient/client.py, src/eeclient/data.py
and src/get_assets.py.  Machine time (`time.time()`) is modelled as a
rational `now` argument; HTTP exchanges are modelled by response oracles. -/

/-- The credential payload stored by a session (`self._credentials` in
async_client.py): the fields the refresh and header logic reads. -/
structure TokenPayload where
  access_token : String
  access_token_expiry_date : ℚ
  project_id : String
deriving Repr, DecidableEq

/-- The mutable state of `AsyncEESession` (async_client.py): the token
expiry in unix milliseconds, the stored credentials, the retry counter and
bound, whether `self._async_client` is currently set, and two
instrumentation logs: how many broker HTTP calls were issued and which
backoff sleeps were performed (no function below ever appends to `sleeps`,
mirroring the absence of any sleep call on the refresh path in the
source). -/
structure AsyncState where
  expiry_date : ℚ
  credentials : Option TokenPayload
  retry_count : ℕ
  max_retries : ℕ
  hasClient : Bool
  brokerCalls : ℕ
  sleeps : List ℚ
  project_id : String
  sepal_username : String
deriving Repr, DecidableEq

/-- `AsyncEESession.is_expired` (async_client.py lines 97-101): computes
`self.expiry_date / 1000 - time.time() < 60` and additionally increments
`self.retry_count` when the token is about to expire. -/
def AsyncEESession.is_expired (now : ℚ) (st : AsyncState) : Bool × AsyncState :=
  let expired : Bool := decide (st.expiry_date / 1000 - now < 60)
  (expired, { st with retry_count := st.retry_count + (if expired then 1 else 0) })

/-- The fields of the synchronous `EESession` (client.py) read or written by
its `is_expired`. -/
structure SyncState where
  retry_count : ℕ
  max_retries : ℕ
  project_id : Option String
  sepal_user : Option String
deriving Repr, DecidableEq

/-- `EESession.is_expired` (client.py lines 97-103): computes
`expiry_date - time.time() < 60` — note: unlike the async variant, the
millisecond timestamp is not divided by 1000 — and increments
`self.retry_count` when expired. -/
def EESession.is_expired (st : SyncState) (expiry_date now : ℚ) : Bool × SyncState :=
  let expired : Bool := decide (expiry_date - now < 60)
  (expired, { st with retry_count := st.retry_count + (if expired then 1 else 0) })

/-- C5: the async staleness check returns true exactly when
`expiry_unix_ms / 1000 - now < 60`, as the spec states; but the synchronous
`EESession.is_expired` omits the division by 1000, so on the bundle with
`expiry_unix_ms = 1000` at `now = 0` — where `1000 / 1000 - 0 = 1 < 60`,
i.e. the claim requires `true` — it returns `false`. -/
theorem c5_staleness_check :
    (∀ st now, (AsyncEESession.is_expired now st).1 = true ↔
      st.expiry_date / 1000 - now < 60)
    ∧ (EESession.is_expired ⟨0, 3, none, none⟩ 1000 0).1 = false
    ∧ ((1000 : ℚ) / 1000 - 0 < 60) := by
  refine ⟨fun st now => ?_, by norm_num [EESession.is_expired], by norm_num⟩
  simp [AsyncEESession.is_expired]

/-- C9 as stated is false: on a stale state the async staleness check
mutates the session, incrementing `retry_count` from 0 to 1. -/
theorem c9_counterexample :
    (AsyncEESession.is_expired 0 ⟨0, none, 0, 3, false, 0, [], "p", "u"⟩).2
      ≠ ⟨0, none, 0, 3, false, 0, [], "p", "u"⟩ := by
  norm_num [AsyncEESession.is_expired]

/-- C9 amended: both staleness checks are pure state transformers (no I/O)
and leave every field of the session state unchanged except `retry_count`,
which is incremented by exactly 1 when and only when the check returns
true. -/
theorem c9_amended_staleness_frame :
    (∀ now st, (AsyncEESession.is_expired now st).2
        = { st with retry_count := st.retry_count
              + (if (AsyncEESession.is_expired now st).1 then 1 else 0) })
    ∧ (∀ st e now, (EESession.is_expired st e now).2
        = { st with retry_count := st.retry_count
              + (if (EESession.is_expired st e now).1 then 1 else 0) }) :=
  ⟨fun _ _ => rfl, fun _ _ _ => rfl⟩

/-- The decoded `error` member of a JSON error body; `none` fields model
keys missing from the envelope. -/
structure ErrorEnvelope where
  code : Option Int
  message : Option String
  status : Option String
  details : Option String
deriving Repr, DecidableEq

/-- `EERestException.__init__` (data.py lines 177-183) builds each field
from the error dict with a `.get` default. -/
structure EERestException where
  message : String
  code : Int
  status : String
  details : Option String
deriving Repr, DecidableEq

/-- Construction of `EERestException` from an error dict: missing keys
fall back to message "EE responded with an error", code -1 and status
"UNDEFINED"; `details` defaults to `None`. -/
def EERestException.ofError (e : ErrorEnvelope) : EERestException :=
  { message := e.message.getD "EE responded with an error"
  , code := e.code.getD (-1)
  , status := e.status.getD "UNDEFINED"
  , details := e.details }

/-- An HTTP response as inspected by `AsyncEESession.rest_call`: the status
code, the Content-Type header value, the reason phrase, the `error` member
of the decoded JSON body when present (`none` models a JSON body without an
`error` key), and the decoded body used on the success path. -/
structure HttpResponse where
  status_code : ℕ
  content_type : String
  reason_phrase : String
  error_envelope : Option ErrorEnvelope
  body : String
deriving Repr, DecidableEq

/-- Whether the first character list starts the second one. -/
def startsWithChars : List Char → List Char → Bool
  | [], _ => true
  | _ :: _, [] => false
  | a :: as, b :: bs => a == b && startsWithChars as bs

/-- Whether the first character list occurs inside the second one. -/
def containsChars (needle : List Char) : List Char → Bool
  | [] => needle.isEmpty
  | c :: cs => startsWithChars needle (c :: cs) || containsChars needle cs

/-- Python's substring test `"application/json" in content_type`. -/
def containsAppJson (s : String) : Bool :=
  containsChars "application/json".toList s.toList

/-- The body of `_make_request` inside `AsyncEESession.rest_call`
(async_client.py lines 189-216), with the HTTP exchange abstracted to the
response it produced: a status ≥ 400 becomes an `EERestException` built
from the JSON error envelope when the Content-Type declares JSON (a missing
envelope stands for the empty dict default of `.get("error", \x7b\x7d)`),
otherwise from the status code and reason phrase; any other status returns
the decoded body.  The Python `except EERestException as e: return e` is
the `.error` branch of the `Except` value. -/
def makeRequest (r : HttpResponse) : Except EERestException String :=
  if 400 ≤ r.status_code then
    if containsAppJson r.content_type then
      .error (EERestException.ofError (r.error_envelope.getD ⟨none, none, none, none⟩))
    else
      .error (EERestException.ofError
        ⟨some (r.status_code : Int), some r.reason_phrase, none, none⟩)
  else
    .ok r.body

deriving instance DecidableEq for Except

/-- The observable outcome of one `rest_call`: the returned payload or the
raised exception, the number of HTTP requests issued, and the successive
sleep durations of the retry loop. -/
structure RestResult where
  outcome : Except EERestException String
  requests : ℕ
  waits : List ℚ
deriving Repr, DecidableEq

/-- Whether a request outcome is the retryable rate-limit error
(`should_retry` in async_client.py lines 38-42 and the
`result.code == 429` test of the retry loop). -/
def isRateLimitError : Except EERestException String → Bool
  | .error e => decide (e.code = 429)
  | .ok _ => false

/-- The retry loop of `AsyncEESession.rest_call` (async_client.py lines
218-235).  `gap` is `max_attempts - attempt`, so the loop guard
`attempt < max_attempts` is the pattern `gap + 1`; on a 429 error the
attempt counter is incremented first and the sleep is
`min(initial_wait * 2 ** attempt, max_wait)` with the incremented value;
any other error is raised at once; when the guard fails the
"Max retry attempts reached" exception with code 429 is raised.
`responses k` is the response to the request of iteration `k` (the Python
`attempt` variable equals the iteration index, since only the 429 branch
continues the loop). -/
def restCallAux (responses : ℕ → HttpResponse) (initial_wait max_wait : ℚ) :
    ℕ → ℕ → ℕ → List ℚ → RestResult
  | 0, _, nreq, waits =>
      { outcome := .error (EERestException.ofError
          ⟨some 429, some "Max retry attempts reached", none, none⟩)
      , requests := nreq, waits := waits }
  | gap + 1, attempt, nreq, waits =>
      match makeRequest (responses attempt) with
      | .error e =>
          if e.code = 429 then
            restCallAux responses initial_wait max_wait gap (attempt + 1) (nreq + 1)
              (waits ++ [min (initial_wait * 2 ^ (attempt + 1)) max_wait])
          else { outcome := .error e, requests := nreq + 1, waits := waits }
      | .ok payload => { outcome := .ok payload, requests := nreq + 1, waits := waits }

/-- `AsyncEESession.rest_call` (async_client.py lines 178-235) with the
HTTP layer abstracted to the stream of responses; the source defaults are
`max_attempts = 5`, `initial_wait = 1`, `max_wait = 60`. -/
def rest_call (responses : ℕ → HttpResponse) (max_attempts : ℕ)
    (initial_wait max_wait : ℚ) : RestResult :=
  restCallAux responses initial_wait max_wait max_attempts 0 0 []

/-- Unfolding of the retry loop over a run of consecutive 429 responses. -/
theorem restCallAux_all429 (responses : ℕ → HttpResponse) (iw mw : ℚ) :
    ∀ (gap attempt nreq : ℕ) (waits : List ℚ),
      (∀ i, attempt ≤ i → i < attempt + gap →
        isRateLimitError (makeRequest (responses i)) = true) →
      restCallAux responses iw mw gap attempt nreq waits =
        { outcome := .error (EERestException.ofError
            ⟨some 429, some "Max retry attempts reached", none, none⟩)
        , requests := nreq + gap
        , waits := waits ++ (List.range gap).map
            (fun k => min (iw * 2 ^ (attempt + k + 1)) mw) } := by
  intro gap
  induction gap with
  | zero => intro attempt nreq waits _; simp [restCallAux]
  | succ g ih =>
      intro attempt nreq waits h
      have h0 : isRateLimitError (makeRequest (responses attempt)) = true :=
        h attempt le_rfl (by omega)
      rw [restCallAux]
      cases hr : makeRequest (responses attempt) with
      | ok p => rw [hr] at h0; simp [isRateLimitError] at h0
      | error e =>
          rw [hr] at h0
          simp only [isRateLimitError, decide_eq_true_eq] at h0
          dsimp only
          rw [if_pos h0]
          rw [ih (attempt + 1) (nreq + 1)
            (waits ++ [min (iw * 2 ^ (attempt + 1)) mw])
            (fun i hi hi2 => h i (by omega) (by omega))]
          simp only [RestResult.mk.injEq]
          refine ⟨trivial, by omega, ?_⟩
          rw [List.append_assoc, List.singleton_append,
            List.range_succ_eq_map, List.map_cons, List.map_map]
          congr 2
          apply List.map_congr_left
          intro k _
          simp only [Function.comp_apply]
          have he : attempt + 1 + k + 1 = attempt + (k + 1) + 1 := by omega
          rw [he]

/-- C2: if every attempt's response decodes to a 429 error, `rest_call`
issues exactly `max_attempts` HTTP requests, sleeps
`min(initial_wait * 2 ^ attempt, max_wait)` seconds after each failed
attempt (with the incremented attempt counter), and then raises the
rate-limit-exhausted exception with code 429; with the source defaults
(`max_attempts = 5`, `initial_wait = 1`, `max_wait = 60`) the successive
sleeps are 2, 4, 8, 16, 32. -/
theorem c2_rate_limit_retry_exhaustion (responses : ℕ → HttpResponse)
    (max_attempts : ℕ) (initial_wait max_wait : ℚ)
    (h : ∀ i, i < max_attempts → isRateLimitError (makeRequest (responses i)) = true) :
    rest_call responses max_attempts initial_wait max_wait =
      { outcome := .error { message := "Max retry attempts reached", code := 429,
                            status := "UNDEFINED", details := none }
      , requests := max_attempts
      , waits := (List.range max_attempts).map
          (fun k => min (initial_wait * 2 ^ (k + 1)) max_wait) } := by
  have hrun := restCallAux_all429 responses initial_wait max_wait max_attempts 0 0 []
    (fun i h1 h2 => h i (by omega))
  rw [rest_call, hrun]
  simp [EERestException.ofError]

/-- A 429 response with a JSON rate-limit error envelope. -/
def resp429 : HttpResponse :=
  { status_code := 429
  , content_type := "application/json; charset=utf-8"
  , reason_phrase := "Too Many Requests"
  , error_envelope := some ⟨some 429, some "Quota exceeded", some "RESOURCE_EXHAUSTED", none⟩
  , body := "" }

/-- Concrete instance of `c2_rate_limit_retry_exhaustion` at the source
defaults: five requests, sleeps 2, 4, 8, 16, 32, then the 429 exhaustion
error. -/
theorem c2_witness :
    (∀ i, i < 5 → isRateLimitError (makeRequest ((fun _ => resp429) i)) = true)
    ∧ rest_call (fun _ => resp429) 5 1 60 =
      { outcome := .error { message := "Max retry attempts reached", code := 429,
                            status := "UNDEFINED", details := none }
      , requests := 5
      , waits := [2, 4, 8, 16, 32] } := by
  have h429 : isRateLimitError (makeRequest resp429) = true := by decide
  refine ⟨fun i _ => h429, ?_⟩
  rw [c2_rate_limit_retry_exhaustion (fun _ => resp429) 5 1 60 (fun i _ => h429)]
  simp only [RestResult.mk.injEq, true_and]
  norm_num [List.range_succ, min_def]

/-- When a run of prior attempts hit 429 and attempt `j` produces an error
whose code is not 429, the retry loop raises that error at once, with no
further request or sleep. -/
theorem restCallAux_nonretryable (responses : ℕ → HttpResponse) (iw mw : ℚ)
    (j : ℕ) (e : EERestException)
    (herr : makeRequest (responses j) = .error e) (hcode : ¬ e.code = 429) :
    ∀ (gap attempt nreq : ℕ) (waits : List ℚ),
      attempt ≤ j → j < attempt + gap →
      (∀ i, attempt ≤ i → i < j → isRateLimitError (makeRequest (responses i)) = true) →
      restCallAux responses iw mw gap attempt nreq waits =
        { outcome := .error e
        , requests := nreq + (j - attempt) + 1
        , waits := waits ++ (List.range (j - attempt)).map
            (fun k => min (iw * 2 ^ (attempt + k + 1)) mw) } := by
  intro gap
  induction gap with
  | zero => intro attempt nreq waits h1 h2 h3; omega
  | succ g ih =>
      intro attempt nreq waits h1 h2 h3
      rw [restCallAux]
      rcases Nat.eq_or_lt_of_le h1 with heq | hlt
      · subst heq
        rw [herr]
        dsimp only
        rw [if_neg hcode]
        simp
      · have h0 : isRateLimitError (makeRequest (responses attempt)) = true :=
          h3 attempt le_rfl hlt
        cases hr : makeRequest (responses attempt) with
        | ok p => rw [hr] at h0; simp [isRateLimitError] at h0
        | error e1 =>
            rw [hr] at h0
            simp only [isRateLimitError, decide_eq_true_eq] at h0
            dsimp only
            rw [if_pos h0]
            rw [ih (attempt + 1) (nreq + 1) _ (by omega) (by omega)
              (fun i hi1 hi2 => h3 i (by omega) hi2)]
            simp only [RestResult.mk.injEq]
            refine ⟨trivial, by omega, ?_⟩
            have hj : j - attempt = (j - (attempt + 1)) + 1 := by omega
            rw [hj, List.append_assoc, List.singleton_append,
              List.range_succ_eq_map, List.map_cons, List.map_map]
            congr 2
            apply List.map_congr_left
            intro k _
            simp only [Function.comp_apply]
            have he2 : attempt + 1 + k + 1 = attempt + (k + 1) + 1 := by omega
            rw [he2]

/-- C8: a REST call whose attempt `j` receives an error with code different
from 429 (for example 403 / INVALID_ARGUMENT) raises that error
immediately: the failing attempt is the last request issued and no further
sleep is performed, no matter how many attempts remain in the budget. -/
theorem c8_non_retryable_raised_immediately (responses : ℕ → HttpResponse)
    (max_attempts j : ℕ) (initial_wait max_wait : ℚ) (e : EERestException)
    (hj : j < max_attempts)
    (hbefore : ∀ i, i < j → isRateLimitError (makeRequest (responses i)) = true)
    (herr : makeRequest (responses j) = .error e)
    (hcode : ¬ e.code = 429) :
    rest_call responses max_attempts initial_wait max_wait =
      { outcome := .error e
      , requests := j + 1
      , waits := (List.range j).map
          (fun k => min (initial_wait * 2 ^ (k + 1)) max_wait) } := by
  have hrun := restCallAux_nonretryable responses initial_wait max_wait j e herr hcode
    max_attempts 0 0 [] (by omega) (by omega) (fun i h1 h2 => hbefore i h2)
  rw [rest_call, hrun]
  simp

/-- A 403 response carrying an INVALID_ARGUMENT error envelope. -/
def resp403 : HttpResponse :=
  { status_code := 403
  , content_type := "application/json"
  , reason_phrase := "Forbidden"
  , error_envelope := some ⟨some 403, some "Permission denied", some "INVALID_ARGUMENT", none⟩
  , body := "" }

/-- Concrete instance of `c8_non_retryable_raised_immediately`: one 429
then a 403 / INVALID_ARGUMENT response; the call stops after the second
request with the 403 error and a single sleep from the 429. -/
theorem c8_witness :
    ((1 : ℕ) < 5
      ∧ makeRequest ((fun i => if i = 0 then resp429 else resp403) 1)
          = .error { message := "Permission denied", code := 403,
                     status := "INVALID_ARGUMENT", details := none }
      ∧ ¬ ({ message := "Permission denied", code := 403,
             status := "INVALID_ARGUMENT", details := none } : EERestException).code = 429)
    ∧ rest_call (fun i => if i = 0 then resp429 else resp403) 5 1 60 =
        { outcome := .error { message := "Permission denied", code := 403,
                              status := "INVALID_ARGUMENT", details := none }
        , requests := 2, waits := [2] } := by
  have herr : makeRequest ((fun i : ℕ => if i = 0 then resp429 else resp403) 1)
      = .error { message := "Permission denied", code := 403,
                 status := "INVALID_ARGUMENT", details := none } := by decide
  have h0 : isRateLimitError
      (makeRequest ((fun i : ℕ => if i = 0 then resp429 else resp403) 0)) = true := by decide
  refine ⟨⟨by norm_num, herr, by decide⟩, ?_⟩
  rw [c8_non_retryable_raised_immediately (fun i => if i = 0 then resp429 else resp403)
    5 1 1 60 _ (by norm_num)
    (fun i hi => by
      have hi0 : i = 0 := by omega
      subst hi0
      exact h0)
    herr (by decide)]
  simp only [RestResult.mk.injEq, true_and]
  norm_num [List.range_succ, min_def]

/-- C10: an HTTP error response that declares a JSON content type but whose
error envelope is missing its keys yields the default exception —
code -1, status "UNDEFINED", message "EE responded with an error" — and,
since -1 is not 429, `rest_call` raises it after a single request with no
sleep, even when the underlying HTTP status was 429. -/
theorem c10_malformed_envelope_defaults (r : HttpResponse)
    (responses : ℕ → HttpResponse) (max_attempts : ℕ) (initial_wait max_wait : ℚ)
    (hstatus : 400 ≤ r.status_code)
    (hjson : containsAppJson r.content_type = true)
    (henv : r.error_envelope = none ∨ r.error_envelope = some ⟨none, none, none, none⟩)
    (hfirst : responses 0 = r)
    (hpos : 0 < max_attempts) :
    makeRequest r = .error { message := "EE responded with an error", code := -1,
                             status := "UNDEFINED", details := none }
    ∧ rest_call responses max_attempts initial_wait max_wait =
        { outcome := .error { message := "EE responded with an error", code := -1,
                              status := "UNDEFINED", details := none }
        , requests := 1, waits := [] } := by
  have hm : makeRequest r = .error ⟨"EE responded with an error", -1, "UNDEFINED", none⟩ := by
    rw [makeRequest, if_pos hstatus, if_pos hjson]
    rcases henv with h | h <;> rw [h] <;> rfl
  refine ⟨hm, ?_⟩
  obtain ⟨g, rfl⟩ : ∃ g, max_attempts = g + 1 := ⟨max_attempts - 1, by omega⟩
  rw [rest_call, restCallAux, hfirst, hm]
  dsimp only
  rw [if_neg (by decide)]

/-- A 429 response declaring JSON but whose body has no error envelope. -/
def resp429malformed : HttpResponse :=
  { status_code := 429
  , content_type := "application/json"
  , reason_phrase := "Too Many Requests"
  , error_envelope := none
  , body := "" }

/-- Concrete instance of `c10_malformed_envelope_defaults`: an HTTP 429
with a malformed JSON body is classified by its default code -1 and raised
immediately. -/
theorem c10_witness :
    ((400 : ℕ) ≤ resp429malformed.status_code
      ∧ containsAppJson resp429malformed.content_type = true
      ∧ (resp429malformed.error_envelope = none
          ∨ resp429malformed.error_envelope = some ⟨none, none, none, none⟩)
      ∧ (fun _ : ℕ => resp429malformed) 0 = resp429malformed
      ∧ (0 : ℕ) < 5)
    ∧ makeRequest resp429malformed
        = .error { message := "EE responded with an error", code := -1,
                   status := "UNDEFINED", details := none }
    ∧ rest_call (fun _ => resp429malformed) 5 1 60 =
        { outcome := .error { message := "EE responded with an error", code := -1,
                              status := "UNDEFINED", details := none }
        , requests := 1, waits := [] } := by
  refine ⟨⟨by norm_num [resp429malformed], by decide, Or.inl rfl, rfl, by norm_num⟩, ?_, ?_⟩
  · exact (c10_malformed_envelope_defaults resp429malformed (fun _ => resp429malformed)
      5 1 60 (by norm_num [resp429malformed]) (by decide) (Or.inl rfl) rfl (by norm_num)).1
  · exact (c10_malformed_envelope_defaults resp429malformed (fun _ => resp429malformed)
      5 1 60 (by norm_num [resp429malformed]) (by decide) (Or.inl rfl) rfl (by norm_num)).2

/-- One asset of a `listAssets` response body; get_assets.py reads its
`type`, `name` and `id` members. -/
structure Asset where
  type : String
  name : String
  id : String
deriving Repr, DecidableEq

/-- An entry of the result collection built by
`get_assets_async_concurrent`. -/
structure Entry where
  type : String
  name : String
  id : String
deriving Repr, DecidableEq

/-- The dict appended per asset: `\x7b"type": ..., "name": ..., "id": ...\x7d`. -/
def Asset.toEntry (a : Asset) : Entry :=
  { type := a.type, name := a.name, id := a.id }

/-- A `listAssets` HTTP response as inspected by get_assets.py: its status
code and the `assets` member of the decoded JSON body (`none` models a body
without an `assets` key). -/
structure ListResponse where
  status_code : ℕ
  assets : Option (List Asset)
deriving Repr, DecidableEq

/-- The remote namespace, as a finite table mapping a folder name to the
response its `listAssets` request returns; folders absent from the table
respond 404 with no `assets` member. -/
def lookupNs (ns : List (String × ListResponse)) (folder : String) : ListResponse :=
  match ns.find? (fun p => p.1 == folder) with
  | some p => p.2
  | none => { status_code := 404, assets := none }

/-- Python truthiness of `response.json().get("assets")`: a missing key or
an empty list is falsy. -/
def truthyAssets (r : ListResponse) : Bool :=
  match r.assets with
  | some (_ :: _) => true
  | _ => false

/-- `list_assets_concurrently` (get_assets.py lines 30-44): one GET per
folder (`asyncio.gather` keeps the task order), then
`response.json()["assets"]` for exactly the responses with status 200 and a
truthy `assets` member; no HTTP error status raises anything — those
responses are simply dropped by the filter. -/
def list_assets_concurrently (ns : List (String × ListResponse))
    (folders : List String) : List (List Asset) :=
  ((folders.map (lookupNs ns)).filter
      (fun r => r.status_code == 200 && truthyAssets r)).map
    (fun r => r.assets.getD [])

/-- The per-asset body of the inner for-loops of
`get_assets_async_concurrent` (get_assets.py lines 61-67): append the
`\x7btype, name, id\x7d` entry to `asset_list` and, when the type is FOLDER, put
the asset's `name` on the folder queue. -/
def processAsset (acc : List Entry × List String) (asset : Asset) :
    List Entry × List String :=
  ( acc.1 ++ [asset.toEntry]
  , if asset.type == "FOLDER" then acc.2 ++ [asset.name] else acc.2 )

/-- The two nested for-loops over the groups returned by one concurrent
listing: the entries appended and the folder names enqueued, in order. -/
def processGroups (groups : List (List Asset)) : List Entry × List String :=
  groups.foldl (fun acc assets => assets.foldl processAsset acc) ([], [])

/-- The while-loop of `get_assets_async_concurrent` (get_assets.py lines
47-69): drain the whole queue (`qsize` many gets), list the drained folders
concurrently, process every returned asset, and repeat until the queue is
empty.  The Python loop is unbounded, so `fuel` bounds the number of levels
and `none` marks a run that does not finish within it.  `trace` logs every
folder dispatched to `list_assets_concurrently`. -/
def getAssetsAux (ns : List (String × ListResponse)) :
    List String → ℕ → List Entry → List String → Option (List Entry × List String)
  | [], _, asset_list, trace => some (asset_list, trace)
  | _ :: _, 0, _, _ => none
  | f :: fs, fuel + 1, asset_list, trace =>
      let step := processGroups (list_assets_concurrently ns (f :: fs))
      getAssetsAux ns step.2 fuel (asset_list ++ step.1) (trace ++ (f :: fs))

/-- `get_assets_async_concurrent` (get_assets.py lines 47-69), with the
session construction and token abstracted away (the token plays no role in
the traversal logic). -/
def get_assets_async_concurrent (ns : List (String × ListResponse))
    (folder : String) (fuel : ℕ) : Option (List Entry × List String) :=
  getAssetsAux ns [folder] fuel [] []

/-- The entries appended during one level of the traversal. -/
def levelEntries (ns : List (String × ListResponse)) (frontier : List String) :
    List Entry :=
  (processGroups (list_assets_concurrently ns frontier)).1

/-- The queue contents produced by one level of the traversal. -/
def nextFrontier (ns : List (String × ListResponse)) (frontier : List String) :
    List String :=
  (processGroups (list_assets_concurrently ns frontier)).2

/-- The successive frontiers of a run started at `frontier`. -/
def levels (ns : List (String × ListResponse)) (frontier : List String) :
    ℕ → List String
  | 0 => frontier
  | k + 1 => nextFrontier ns (levels ns frontier k)

/-- The folder names a response contributes to the queue: its FOLDER-typed
assets' names when it is listed successfully, nothing otherwise. -/
def folderChildren (r : ListResponse) : List String :=
  if r.status_code == 200 && truthyAssets r then
    ((r.assets.getD []).filter (fun a => a.type == "FOLDER")).map (fun a => a.name)
  else []

/-- Unfolding the inner for-loop: entries and queue additions of one asset
group. -/
theorem foldl_processAsset (assets : List Asset) :
    ∀ acc : List Entry × List String,
      assets.foldl processAsset acc =
        ( acc.1 ++ assets.map Asset.toEntry
        , acc.2 ++ (assets.filter (fun a => a.type == "FOLDER")).map
            (fun a => a.name) ) := by
  induction assets with
  | nil => intro acc; simp
  | cons a as ih =>
      intro acc
      rw [List.foldl_cons, ih]
      cases h : a.type == "FOLDER" <;>
        simp [processAsset, h]

/-- Unfolding the outer for-loop: entries and queue additions of a list of
groups. -/
theorem processGroups_eq (groups : List (List Asset)) :
    processGroups groups =
      ( (groups.map (fun g => g.map Asset.toEntry)).flatten
      , (groups.map (fun g =>
          (g.filter (fun a => a.type == "FOLDER")).map (fun a => a.name))).flatten ) := by
  have haux : ∀ (gs : List (List Asset)) (acc : List Entry × List String),
      gs.foldl (fun acc assets => assets.foldl processAsset acc) acc =
        ( acc.1 ++ (gs.map (fun g => g.map Asset.toEntry)).flatten
        , acc.2 ++ (gs.map (fun g =>
            (g.filter (fun a => a.type == "FOLDER")).map (fun a => a.name))).flatten ) := by
    intro gs
    induction gs with
    | nil => intro acc; simp
    | cons g gs ih =>
        intro acc
        rw [List.foldl_cons, foldl_processAsset, ih]
        simp
  rw [processGroups, haux]
  simp

/-- Filtering then mapping is mapping with a vacuous branch, after
flattening. -/
theorem flatten_filter_map {α : Type} (P : ListResponse → Bool)
    (g : ListResponse → List α) :
    ∀ rs : List ListResponse,
      ((rs.filter P).map g).flatten
        = (rs.map (fun r => if P r then g r else [])).flatten := by
  intro rs
  induction rs with
  | nil => simp
  | cons r rs ih =>
      rw [List.filter_cons]
      cases h : P r <;> simp [h, ih]

/-- Per-node form of one level's entries: each node of the frontier whose
response has status 200 and a truthy assets list contributes one entry per
child, in response order; every other node contributes nothing. -/
theorem levelEntries_eq (ns : List (String × ListResponse)) (frontier : List String) :
    levelEntries ns frontier =
      (frontier.map (fun f =>
        if (lookupNs ns f).status_code == 200 && truthyAssets (lookupNs ns f)
        then ((lookupNs ns f).assets.getD []).map Asset.toEntry
        else [])).flatten := by
  rw [levelEntries, processGroups_eq, list_assets_concurrently, List.map_map,
    flatten_filter_map, List.map_map]
  rfl

/-- Per-node form of one level's queue additions: each node contributes
exactly its `folderChildren`. -/
theorem nextFrontier_eq (ns : List (String × ListResponse)) (frontier : List String) :
    nextFrontier ns frontier =
      (frontier.map (fun f => folderChildren (lookupNs ns f))).flatten := by
  rw [nextFrontier, processGroups_eq]
  dsimp only
  rw [list_assets_concurrently, List.map_map, flatten_filter_map, List.map_map]
  rfl

/-- C6 amended: a frontier node whose listing returns a non-200 status does
not abort the traversal and raises nothing — its response is filtered out,
so the level behaves exactly as if the node were absent from the frontier:
the same entries are appended and the same folders are enqueued from the
remaining nodes (per-node HTTP errors become partial success). -/
theorem c6_error_status_skipped (ns : List (String × ListResponse))
    (f : String) (fs1 fs2 : List String)
    (h : (lookupNs ns f).status_code ≠ 200) :
    list_assets_concurrently ns (fs1 ++ f :: fs2)
        = list_assets_concurrently ns (fs1 ++ fs2)
    ∧ levelEntries ns (fs1 ++ f :: fs2) = levelEntries ns (fs1 ++ fs2)
    ∧ nextFrontier ns (fs1 ++ f :: fs2) = nextFrontier ns (fs1 ++ fs2) := by
  have h1 : ((lookupNs ns f).status_code == 200) = false := by
    rw [beq_eq_false_iff_ne]
    exact h
  have hb : ((lookupNs ns f).status_code == 200 && truthyAssets (lookupNs ns f))
      = false := by
    rw [h1, Bool.false_and]
  have hl : list_assets_concurrently ns (fs1 ++ f :: fs2)
      = list_assets_concurrently ns (fs1 ++ fs2) := by
    rw [list_assets_concurrently, list_assets_concurrently]
    simp [List.filter_cons, hb]
  refine ⟨hl, ?_, ?_⟩
  · rw [levelEntries, levelEntries, hl]
  · rw [nextFrontier, nextFrontier, hl]

/-- A namespace whose folder "A" answers 429 while "root" lists "A" and a
leaf. -/
def nsBad : List (String × ListResponse) :=
  [ ("root", { status_code := 200
             , assets := some [ { type := "FOLDER", name := "A", id := "a" }
                              , { type := "IMAGE", name := "L", id := "l" } ] })
  , ("A", { status_code := 429, assets := none }) ]

/-- C6 as stated is false: when the dispatch for node "A" fails with a
rate-limit status 429, the enumeration does not abort and the partial
result set is not discarded — the run completes and returns the entries
gathered from the other nodes. -/
theorem c6_counterexample :
    (lookupNs nsBad "A").status_code = 429
    ∧ get_assets_async_concurrent nsBad "root" 5
        = some ( [ { type := "FOLDER", name := "A", id := "a" }
                 , { type := "IMAGE", name := "L", id := "l" } ]
               , ["root", "A"] ) := by
  constructor
  · rfl
  · rfl

/-- Concrete instance of `c6_error_status_skipped` on `nsBad`: the level
consisting of "root" and the failing "A" produces exactly what the level
without "A" produces. -/
theorem c6_witness :
    (lookupNs nsBad "A").status_code ≠ 200
    ∧ (list_assets_concurrently nsBad (["root"] ++ "A" :: [])
          = list_assets_concurrently nsBad (["root"] ++ [])
        ∧ levelEntries nsBad (["root"] ++ "A" :: []) = levelEntries nsBad (["root"] ++ [])
        ∧ nextFrontier nsBad (["root"] ++ "A" :: [])
          = nextFrontier nsBad (["root"] ++ [])) := by
  have h : (lookupNs nsBad "A").status_code ≠ 200 := by decide
  exact ⟨h, c6_error_status_skipped nsBad "A" ["root"] [] h⟩

/-- The response of a folder absent from the namespace table contributes no
children. -/
theorem folderChildren_notFound :
    folderChildren { status_code := 404, assets := none } = [] := rfl

/-- One level from the empty frontier produces the empty frontier. -/
theorem levels_nil (ns : List (String × ListResponse)) :
    ∀ k, levels ns [] k = [] := by
  intro k
  induction k with
  | zero => rfl
  | succ k ih =>
      show nextFrontier ns (levels ns [] k) = []
      rw [ih]
      rfl

/-- An empty frontier appends no entries. -/
theorem levelEntries_nil (ns : List (String × ListResponse)) :
    levelEntries ns [] = [] := rfl

/-- A list of empty lists flattens to the empty list. -/
theorem flatten_of_forall_nil {α : Type} :
    ∀ L : List (List α), (∀ l ∈ L, l = []) → L.flatten = [] := by
  intro L
  induction L with
  | nil => intro _; rfl
  | cons l L ih =>
      intro h
      rw [List.flatten_cons, h l (by simp), ih (fun x hx => h x (by simp [hx]))]
      rfl

/-- Frontier levels compose: the levels of the next frontier are the later
levels of the current one. -/
theorem levels_next (ns : List (String × ListResponse)) (frontier : List String) :
    ∀ k, levels ns (nextFrontier ns frontier) k = levels ns frontier (k + 1) := by
  intro k
  induction k with
  | zero => rfl
  | succ k ih =>
      show nextFrontier ns (levels ns (nextFrontier ns frontier) k)
        = levels ns frontier (k + 1 + 1)
      rw [ih]
      rfl

/-- Unfolding a whole terminating run of the while-loop: when level `m` is
empty and at least `m` fuel is available, the loop returns the
concatenation of the per-level entries, and its dispatch trace is the
concatenation of the frontiers. -/
theorem getAssetsAux_run (ns : List (String × ListResponse)) :
    ∀ (m : ℕ) (frontier : List String) (fuel : ℕ) (acc : List Entry) (tr : List String),
      levels ns frontier m = [] → m ≤ fuel →
      getAssetsAux ns frontier fuel acc tr =
        some ( acc ++ ((List.range m).map
                 (fun k => levelEntries ns (levels ns frontier k))).flatten
             , tr ++ ((List.range m).map (fun k => levels ns frontier k)).flatten ) := by
  intro m
  induction m with
  | zero =>
      intro frontier fuel acc tr hm hf
      have hfr : frontier = [] := hm
      subst hfr
      simp [getAssetsAux]
  | succ m ih =>
      intro frontier fuel acc tr hm hf
      cases frontier with
      | nil =>
          have h1 : (((List.range (m + 1)).map
              (fun k => levelEntries ns (levels ns ([] : List String) k))).flatten)
              = [] := by
            apply flatten_of_forall_nil
            intro l hl
            obtain ⟨k, _, rfl⟩ := List.mem_map.mp hl
            rw [levels_nil, levelEntries_nil]
          have h2 : (((List.range (m + 1)).map
              (fun k => levels ns ([] : List String) k)).flatten) = [] := by
            apply flatten_of_forall_nil
            intro l hl
            obtain ⟨k, _, rfl⟩ := List.mem_map.mp hl
            rw [levels_nil]
          rw [h1, h2]
          simp [getAssetsAux]
      | cons f fs =>
          cases fuel with
          | zero => omega
          | succ fuel =>
              rw [show getAssetsAux ns (f :: fs) (fuel + 1) acc tr
                  = getAssetsAux ns (nextFrontier ns (f :: fs)) fuel
                      (acc ++ levelEntries ns (f :: fs)) (tr ++ (f :: fs)) from rfl]
              rw [ih (nextFrontier ns (f :: fs)) fuel _ _
                (by rw [levels_next]; exact hm) (by omega)]
              simp only [List.range_succ_eq_map, List.map_cons, List.flatten_cons,
                List.map_map, Option.some.injEq, Prod.mk.injEq]
              have hmapE : List.map
                  (fun k => levelEntries ns (levels ns (nextFrontier ns (f :: fs)) k))
                  (List.range m)
                  = List.map ((fun k => levelEntries ns (levels ns (f :: fs) k)) ∘ Nat.succ)
                      (List.range m) := by
                apply List.map_congr_left
                intro k _
                simp only [Function.comp_apply]
                rw [levels_next]
              have hmapL : List.map
                  (fun k => levels ns (nextFrontier ns (f :: fs)) k) (List.range m)
                  = List.map ((fun k => levels ns (f :: fs) k) ∘ Nat.succ)
                      (List.range m) := by
                apply List.map_congr_left
                intro k _
                simp only [Function.comp_apply]
                rw [levels_next]
              constructor
              · rw [List.append_assoc, hmapE]
                rfl
              · rw [List.append_assoc, hmapL]
                rfl

/-- Transfer of a per-table rank bound to lookups: a folder child of any
looked-up node has strictly smaller rank. -/
theorem folderChildren_lookup_lt (ns : List (String × ListResponse))
    (rank : String → ℕ)
    (hrank : ∀ p ∈ ns, ∀ c ∈ folderChildren p.2, rank c < rank p.1) :
    ∀ f c, c ∈ folderChildren (lookupNs ns f) → rank c < rank f := by
  intro f c hc
  rw [lookupNs] at hc
  cases hfind : ns.find? (fun p => p.1 == f) with
  | none =>
      rw [hfind] at hc
      dsimp only at hc
      rw [folderChildren_notFound] at hc
      exact absurd hc (List.not_mem_nil c)
  | some p =>
      rw [hfind] at hc
      dsimp only at hc
      have hmem : p ∈ ns := List.mem_of_find?_eq_some hfind
      have hkey : p.1 = f := by simpa using List.find?_some hfind
      exact hkey ▸ hrank p hmem c hc

/-- Transfer of the unique-parent property to lookups. -/
theorem folderChildren_lookup_uniq (ns : List (String × ListResponse))
    (huniq : ∀ p ∈ ns, ∀ q ∈ ns, ∀ c,
      c ∈ folderChildren p.2 → c ∈ folderChildren q.2 → p.1 = q.1) :
    ∀ f g c, c ∈ folderChildren (lookupNs ns f) →
      c ∈ folderChildren (lookupNs ns g) → f = g := by
  intro f g c hf hg
  rw [lookupNs] at hf
  rw [lookupNs] at hg
  cases hff : ns.find? (fun p => p.1 == f) with
  | none =>
      rw [hff] at hf
      dsimp only at hf
      rw [folderChildren_notFound] at hf
      exact absurd hf (List.not_mem_nil c)
  | some p =>
      cases hgg : ns.find? (fun p => p.1 == g) with
      | none =>
          rw [hgg] at hg
          dsimp only at hg
          rw [folderChildren_notFound] at hg
          exact absurd hg (List.not_mem_nil c)
      | some q =>
          rw [hff] at hf
          rw [hgg] at hg
          dsimp only at hf hg
          have hpf : p.1 = f := by simpa using List.find?_some hff
          have hqg : q.1 = g := by simpa using List.find?_some hgg
          have hpq := huniq p (List.mem_of_find?_eq_some hff)
            q (List.mem_of_find?_eq_some hgg) c hf hg
          rw [← hpf, ← hqg, hpq]

/-- Transfer of the per-table sibling distinctness to lookups. -/
theorem folderChildren_lookup_nodup (ns : List (String × ListResponse))
    (hsib : ∀ p ∈ ns, (folderChildren p.2).Nodup) :
    ∀ f, (folderChildren (lookupNs ns f)).Nodup := by
  intro f
  rw [lookupNs]
  cases hff : ns.find? (fun p => p.1 == f) with
  | none =>
      dsimp only
      rw [folderChildren_notFound]
      exact List.nodup_nil
  | some p =>
      dsimp only
      exact hsib p (List.mem_of_find?_eq_some hff)

/-- Transfer of the root-is-no-child property to lookups. -/
theorem folderChildren_lookup_not_root (ns : List (String × ListResponse))
    (root : String) (hroot : ∀ p ∈ ns, root ∉ folderChildren p.2) :
    ∀ f, root ∉ folderChildren (lookupNs ns f) := by
  intro f hmem
  rw [lookupNs] at hmem
  cases hff : ns.find? (fun p => p.1 == f) with
  | none =>
      rw [hff] at hmem
      dsimp only at hmem
      rw [folderChildren_notFound] at hmem
      exact absurd hmem (List.not_mem_nil root)
  | some p =>
      rw [hff] at hmem
      dsimp only at hmem
      exact hroot p (List.mem_of_find?_eq_some hff) hmem

/-- Every member of a later level is a folder child of a member of the
previous level. -/
theorem mem_levels_succ (ns : List (String × ListResponse)) (fr : List String)
    (k : ℕ) (x : String) (hx : x ∈ levels ns fr (k + 1)) :
    ∃ p ∈ levels ns fr k, x ∈ folderChildren (lookupNs ns p) := by
  have hx2 : x ∈ nextFrontier ns (levels ns fr k) := hx
  rw [nextFrontier_eq] at hx2
  obtain ⟨l, hl, hxl⟩ := List.mem_flatten.mp hx2
  obtain ⟨p, hp, rfl⟩ := List.mem_map.mp hl
  exact ⟨p, hp, hxl⟩

/-- Rank decreases along the levels: a node at level `k` has rank at most
the initial bound minus `k`. -/
theorem levels_rank_bound (ns : List (String × ListResponse))
    (rank : String → ℕ) (B : ℕ)
    (hrk : ∀ f c, c ∈ folderChildren (lookupNs ns f) → rank c < rank f)
    (frontier : List String) (hb : ∀ x ∈ frontier, rank x ≤ B) :
    ∀ k, ∀ x ∈ levels ns frontier k, rank x + k ≤ B := by
  intro k
  induction k with
  | zero => intro x hx; simpa using hb x hx
  | succ k ih =>
      intro x hx
      obtain ⟨p, hp, hc⟩ := mem_levels_succ ns frontier k x hx
      have h1 := hrk p x hc
      have h2 := ih p hp
      omega

/-- Under a rank function the levels die out: level `rank root + 1` of a
run started at the root is empty. -/
theorem levels_empty_at (ns : List (String × ListResponse))
    (rank : String → ℕ) (root : String)
    (hrk : ∀ f c, c ∈ folderChildren (lookupNs ns f) → rank c < rank f) :
    levels ns [root] (rank root + 1) = [] := by
  by_contra h
  obtain ⟨x, hx⟩ := List.exists_mem_of_ne_nil _ h
  have hb : ∀ y ∈ [root], rank y ≤ rank root := by simp
  have := levels_rank_bound ns rank (rank root) hrk [root] hb (rank root + 1) x hx
  omega

/-- Under the unique-parent and root-is-no-child conditions, two distinct
levels of a run started at the root are disjoint. -/
theorem levels_disjoint (ns : List (String × ListResponse)) (root : String)
    (hu : ∀ f g c, c ∈ folderChildren (lookupNs ns f) →
      c ∈ folderChildren (lookupNs ns g) → f = g)
    (hr : ∀ f, root ∉ folderChildren (lookupNs ns f)) :
    ∀ d i x, x ∈ levels ns [root] i → x ∈ levels ns [root] (i + d + 1) → False := by
  intro d i
  induction i with
  | zero =>
      intro x hx0 hx1
      have hx2 : x ∈ [root] := hx0
      have hxr : x = root := by simpa using hx2
      obtain ⟨p, _, hc⟩ := mem_levels_succ ns [root] (0 + d) x hx1
      exact hr p (hxr ▸ hc)
  | succ i ih =>
      intro x hx0 hx1
      obtain ⟨p, hp, hcp⟩ := mem_levels_succ ns [root] i x hx0
      obtain ⟨q, hq, hcq⟩ := mem_levels_succ ns [root] (i + 1 + d) x hx1
      have hpq : p = q := hu p q x hcp hcq
      subst hpq
      have heq : i + 1 + d = i + d + 1 := by omega
      rw [heq] at hq
      exact ih p hp hq

/-- Under sibling distinctness and unique parenthood every level of a run
started at the root is duplicate-free. -/
theorem levels_nodup (ns : List (String × ListResponse)) (root : String)
    (hu : ∀ f g c, c ∈ folderChildren (lookupNs ns f) →
      c ∈ folderChildren (lookupNs ns g) → f = g)
    (hsl : ∀ f, (folderChildren (lookupNs ns f)).Nodup) :
    ∀ k, (levels ns [root] k).Nodup := by
  intro k
  induction k with
  | zero => exact List.nodup_singleton root
  | succ k ih =>
      rw [show levels ns [root] (k + 1) = nextFrontier ns (levels ns [root] k) from rfl,
        nextFrontier_eq, List.nodup_flatten]
      constructor
      · intro l hl
        obtain ⟨p, _, rfl⟩ := List.mem_map.mp hl
        exact hsl p
      · rw [List.pairwise_map]
        exact List.Pairwise.imp
          (fun hab x hxa hxb => hab (hu _ _ x hxa hxb)) ih

/-- C7 amended (restricted to tree-shaped namespaces): given a rank
function witnessing acyclicity and the tree conditions — duplicate-free
folder children per response, at most one parent per folder name, and a
root that is no node's child — the enumeration terminates exactly when the
frontier becomes empty, returns the concatenation of the per-level entries
(one entry per child of each successfully listed frontier node; an empty or
key-less child list contributes nothing), enqueues exactly the FOLDER
children as each next frontier, and its dispatch trace visits no node
twice. -/
theorem c7_tree_enumeration (ns : List (String × ListResponse)) (root : String)
    (rank : String → ℕ) (fuel : ℕ)
    (hrank : ∀ p ∈ ns, ∀ c ∈ folderChildren p.2, rank c < rank p.1)
    (huniq : ∀ p ∈ ns, ∀ q ∈ ns, ∀ c,
      c ∈ folderChildren p.2 → c ∈ folderChildren q.2 → p.1 = q.1)
    (hsib : ∀ p ∈ ns, (folderChildren p.2).Nodup)
    (hroot : ∀ p ∈ ns, root ∉ folderChildren p.2)
    (hfuel : rank root < fuel) :
    ∃ m,
      levels ns [root] m = []
      ∧ get_assets_async_concurrent ns root fuel =
          some ( ((List.range m).map
                   (fun k => levelEntries ns (levels ns [root] k))).flatten
               , ((List.range m).map (fun k => levels ns [root] k)).flatten )
      ∧ (((List.range m).map (fun k => levels ns [root] k)).flatten).Nodup
      ∧ (∀ frontier, levelEntries ns frontier
            = (frontier.map (fun f =>
                if (lookupNs ns f).status_code == 200 && truthyAssets (lookupNs ns f)
                then ((lookupNs ns f).assets.getD []).map Asset.toEntry
                else [])).flatten)
      ∧ (∀ frontier, nextFrontier ns frontier
            = (frontier.map (fun f => folderChildren (lookupNs ns f))).flatten) := by
  have hrk := folderChildren_lookup_lt ns rank hrank
  have hu := folderChildren_lookup_uniq ns huniq
  have hsl := folderChildren_lookup_nodup ns hsib
  have hr := folderChildren_lookup_not_root ns root hroot
  have hempty := levels_empty_at ns rank root hrk
  refine ⟨rank root + 1, hempty, ?_, ?_, levelEntries_eq ns, nextFrontier_eq ns⟩
  · rw [get_assets_async_concurrent,
      getAssetsAux_run ns (rank root + 1) [root] fuel [] [] hempty (by omega)]
    simp
  · rw [List.nodup_flatten]
    constructor
    · intro l hl
      obtain ⟨k, _, rfl⟩ := List.mem_map.mp hl
      exact levels_nodup ns root hu hsl k
    · rw [List.pairwise_map]
      refine List.Pairwise.imp ?_ (List.pairwise_lt_range (rank root + 1))
      intro a b hab
      intro x hxa hxb
      have hb2 : b = a + (b - a - 1) + 1 := by omega
      rw [hb2] at hxb
      exact levels_disjoint ns root hu hr (b - a - 1) a x hxa hxb

/-- A three-node tree namespace: the root "r" holds folder "A" and a leaf;
"A" holds one leaf. -/
def nsT : List (String × ListResponse) :=
  [ ("r", { status_code := 200
          , assets := some [ { type := "FOLDER", name := "A", id := "idA" }
                           , { type := "IMAGE", name := "L1", id := "id1" } ] })
  , ("A", { status_code := 200
          , assets := some [ { type := "IMAGE", name := "L2", id := "id2" } ] }) ]

/-- A rank function for `nsT`. -/
def rankT (s : String) : ℕ :=
  if s = "r" then 2 else if s = "A" then 1 else 0

/-- Concrete instance of `c7_tree_enumeration` on the tree `nsT`. -/
theorem c7_witness :
    ( (∀ p ∈ nsT, ∀ c ∈ folderChildren p.2, rankT c < rankT p.1)
      ∧ (∀ p ∈ nsT, ∀ q ∈ nsT, ∀ c,
          c ∈ folderChildren p.2 → c ∈ folderChildren q.2 → p.1 = q.1)
      ∧ (∀ p ∈ nsT, (folderChildren p.2).Nodup)
      ∧ (∀ p ∈ nsT, "r" ∉ folderChildren p.2)
      ∧ rankT "r" < 3 )
    ∧ (∃ m,
        levels nsT ["r"] m = []
        ∧ get_assets_async_concurrent nsT "r" 3 =
            some ( ((List.range m).map
                     (fun k => levelEntries nsT (levels nsT ["r"] k))).flatten
                 , ((List.range m).map (fun k => levels nsT ["r"] k)).flatten )
        ∧ (((List.range m).map (fun k => levels nsT ["r"] k)).flatten).Nodup
        ∧ (∀ frontier, levelEntries nsT frontier
              = (frontier.map (fun f =>
                  if (lookupNs nsT f).status_code == 200 && truthyAssets (lookupNs nsT f)
                  then ((lookupNs nsT f).assets.getD []).map Asset.toEntry
                  else [])).flatten)
        ∧ (∀ frontier, nextFrontier nsT frontier
              = (frontier.map (fun f => folderChildren (lookupNs nsT f))).flatten)) :=
  ⟨⟨by decide, by decide, by decide, by decide, by decide⟩,
    c7_tree_enumeration nsT "r" rankT 3
      (by decide) (by decide) (by decide) (by decide) (by decide)⟩

/-- A diamond-shaped acyclic namespace: folders "A" and "B" share the
child folder "C". -/
def nsD : List (String × ListResponse) :=
  [ ("root", { status_code := 200
             , assets := some [ { type := "FOLDER", name := "A", id := "a" }
                              , { type := "FOLDER", name := "B", id := "b" } ] })
  , ("A", { status_code := 200
          , assets := some [ { type := "FOLDER", name := "C", id := "c1" } ] })
  , ("B", { status_code := 200
          , assets := some [ { type := "FOLDER", name := "C", id := "c2" } ] })
  , ("C", { status_code := 200
          , assets := some [ { type := "IMAGE", name := "L", id := "l" } ] }) ]

/-- A rank function witnessing that `nsD` is acyclic. -/
def rankD (s : String) : ℕ :=
  if s = "root" then 3
  else if s = "A" then 2
  else if s = "B" then 2
  else if s = "C" then 1
  else 0

/-- C7 as stated is false on acyclic namespaces in general: `nsD` is
acyclic (witnessed by `rankD`), yet the enumeration dispatches a request
for node "C" twice and lists its leaf twice — a node is visited twice. -/
theorem c7_counterexample :
    (∀ p ∈ nsD, ∀ c ∈ folderChildren p.2, rankD c < rankD p.1)
    ∧ get_assets_async_concurrent nsD "root" 5
        = some ( [ { type := "FOLDER", name := "A", id := "a" }
                 , { type := "FOLDER", name := "B", id := "b" }
                 , { type := "FOLDER", name := "C", id := "c1" }
                 , { type := "FOLDER", name := "C", id := "c2" }
                 , { type := "IMAGE", name := "L", id := "l" }
                 , { type := "IMAGE", name := "L", id := "l" } ]
               , ["root", "A", "B", "C", "C"] )
    ∧ ¬ (["root", "A", "B", "C", "C"] : List String).Nodup := by
  refine ⟨by decide, by rfl, by decide⟩

/-- A response of the identity broker's credentials endpoint
(`SEPAL_API_DOWNLOAD_URL` in async_client.py). -/
structure BrokerResponse where
  status : ℕ
  payload : TokenPayload
deriving Repr, DecidableEq

/-- The headers dict built by `get_current_headers`. -/
structure GEEHeaders where
  goog_user_project : String
  authorization : String
  username : String
deriving Repr, DecidableEq

/-- The exceptions of the session paths: `EEClientError` messages, and the
`ValueError` of `set_credentials`, which reports the retry bound and the
last observed status code. -/
inductive SessionError where
  | clientError (msg : String)
  | credentialsFailure (max_retries : ℕ) (last_status : Option ℕ)
deriving Repr, DecidableEq

/-- `AsyncEESession.get_current_headers` (async_client.py lines 103-113):
fails when no credentials are stored, else builds the three headers. -/
def get_current_headers (st : AsyncState) : Except SessionError GEEHeaders :=
  match st.credentials with
  | none => .error (.clientError "No credentials available")
  | some c =>
      .ok { goog_user_project := st.project_id
          , authorization := "Bearer " ++ c.access_token
          , username := st.sepal_username }

mutual

/-- `AsyncEESession.get_headers` (async_client.py lines 115-119): refresh
via `set_credentials` when `is_expired`, then return the current headers.
`fuel` bounds the depth of the mutual recursion (the Python code has no
such bound); a `none` result marks an execution that exhausts every fuel,
i.e. does not terminate. -/
def getHeadersM (broker : ℕ → BrokerResponse) (now : ℚ) :
    ℕ → AsyncState → AsyncState × Option (Except SessionError GEEHeaders)
  | 0, st => (st, none)
  | fuel + 1, st =>
      match AsyncEESession.is_expired now st with
      | (true, st1) =>
          match setCredentialsM broker now fuel st1 with
          | (st2, none) => (st2, none)
          | (st2, some (.error e)) => (st2, some (.error e))
          | (st2, some (.ok _)) => (st2, some (get_current_headers st2))
      | (false, st1) => (st1, some (get_current_headers st1))

/-- The client-acquisition half of `AsyncEESession.get_client`
(async_client.py lines 121-129): when `self._async_client` is unset, fetch
headers — which may itself refresh credentials — and create the client. -/
def getClientM (broker : ℕ → BrokerResponse) (now : ℚ) :
    ℕ → AsyncState → AsyncState × Option (Except SessionError Unit)
  | 0, st => (st, none)
  | fuel + 1, st =>
      if st.hasClient then (st, some (.ok ()))
      else
        match getHeadersM broker now fuel st with
        | (st1, none) => (st1, none)
        | (st1, some (.error e)) => (st1, some (.error e))
        | (st1, some (.ok _)) => ({ st1 with hasClient := true }, some (.ok ()))

/-- `AsyncEESession.set_credentials` (async_client.py lines 137-176):
reset `retry_count` to 0, then run the retry loop. -/
def setCredentialsM (broker : ℕ → BrokerResponse) (now : ℚ) :
    ℕ → AsyncState → AsyncState × Option (Except SessionError Unit)
  | 0, st => (st, none)
  | fuel + 1, st => setCredLoopM broker now fuel { st with retry_count := 0 } none

/-- The `while self.retry_count < self.max_retries` loop of
`set_credentials`: acquire the client (creating it — and hence fetching
headers — when none is open), GET the credentials URL (`brokerCalls`
counts these), close the client (`finally` of `get_client`), then either
store the payload as the new credentials and expiry on status 200, or
increment `retry_count` and continue; when the guard fails the loop's
`else` raises carrying the last observed status.  No branch sleeps —
`set_credentials` has no backoff call — so `sleeps` never grows. -/
def setCredLoopM (broker : ℕ → BrokerResponse) (now : ℚ) :
    ℕ → AsyncState → Option ℕ → AsyncState × Option (Except SessionError Unit)
  | 0, st, _ => (st, none)
  | fuel + 1, st, last =>
      if st.retry_count < st.max_retries then
        match getClientM broker now fuel st with
        | (st1, none) => (st1, none)
        | (st1, some (.error e)) => (st1, some (.error e))
        | (st1, some (.ok _)) =>
            let resp := broker st1.brokerCalls
            let st2 := { st1 with brokerCalls := st1.brokerCalls + 1
                                , hasClient := false }
            if resp.status = 200 then
              ( { st2 with credentials := some resp.payload
                         , expiry_date := resp.payload.access_token_expiry_date }
              , some (.ok ()) )
            else
              setCredLoopM broker now fuel
                { st2 with retry_count := st2.retry_count + 1 } (some resp.status)
      else (st, some (.error (.credentialsFailure st.max_retries last)))

end

/-- On a stale token the staleness check returns true and bumps the retry
counter. -/
theorem is_expired_of_stale (now : ℚ) (st : AsyncState)
    (hst : st.expiry_date / 1000 - now < 60) :
    AsyncEESession.is_expired now st
      = (true, { st with retry_count := st.retry_count + 1 }) := by
  simp only [AsyncEESession.is_expired, decide_eq_true hst, if_true]

/-- On a session whose token is stale and with no client object open, every
path of the `get_headers` / `get_client` / `set_credentials` recursion
exhausts any amount of fuel: the mutual recursion never returns, the broker
is never called, no credentials are stored, and no sleep is performed —
only `retry_count` changes. -/
theorem session_stale_diverges (broker : ℕ → BrokerResponse) (now : ℚ) :
    ∀ fuel : ℕ,
      (∀ st : AsyncState, st.expiry_date / 1000 - now < 60 → st.hasClient = false →
        0 < st.max_retries →
        (getHeadersM broker now fuel st).2 = none
        ∧ ∃ rc, (getHeadersM broker now fuel st).1 = { st with retry_count := rc })
      ∧ (∀ st : AsyncState, st.expiry_date / 1000 - now < 60 → st.hasClient = false →
        0 < st.max_retries →
        (getClientM broker now fuel st).2 = none
        ∧ ∃ rc, (getClientM broker now fuel st).1 = { st with retry_count := rc })
      ∧ (∀ st : AsyncState, st.expiry_date / 1000 - now < 60 → st.hasClient = false →
        0 < st.max_retries →
        (setCredentialsM broker now fuel st).2 = none
        ∧ ∃ rc, (setCredentialsM broker now fuel st).1 = { st with retry_count := rc })
      ∧ (∀ (st : AsyncState) (last : Option ℕ),
        st.expiry_date / 1000 - now < 60 → st.hasClient = false →
        0 < st.max_retries → st.retry_count < st.max_retries →
        (setCredLoopM broker now fuel st last).2 = none
        ∧ ∃ rc, (setCredLoopM broker now fuel st last).1
            = { st with retry_count := rc }) := by
  intro fuel
  induction fuel with
  | zero =>
      refine ⟨?_, ?_, ?_, ?_⟩ <;> intros <;> exact ⟨rfl, ⟨_, rfl⟩⟩
  | succ fuel ih =>
      obtain ⟨ihH, ihC, ihS, ihL⟩ := ih
      have stepH : ∀ st : AsyncState, st.expiry_date / 1000 - now < 60 →
          st.hasClient = false → 0 < st.max_retries →
          (getHeadersM broker now (fuel + 1) st).2 = none
          ∧ ∃ rc, (getHeadersM broker now (fuel + 1) st).1
              = { st with retry_count := rc } := by
        intro st hst hcl hmax
        obtain ⟨h2, rc, hσ⟩ :=
          ihS { st with retry_count := st.retry_count + 1 } hst hcl hmax
        cases hp : setCredentialsM broker now fuel
            { st with retry_count := st.retry_count + 1 } with
        | mk σ r =>
            rw [hp] at h2 hσ
            dsimp only at h2 hσ
            subst h2
            have hval : getHeadersM broker now (fuel + 1) st = (σ, none) := by
              rw [getHeadersM, is_expired_of_stale now st hst]
              dsimp only
              rw [hp]
            rw [hval]
            exact ⟨rfl, rc, hσ⟩
      have stepC : ∀ st : AsyncState, st.expiry_date / 1000 - now < 60 →
          st.hasClient = false → 0 < st.max_retries →
          (getClientM broker now (fuel + 1) st).2 = none
          ∧ ∃ rc, (getClientM broker now (fuel + 1) st).1
              = { st with retry_count := rc } := by
        intro st hst hcl hmax
        obtain ⟨h2, rc, hσ⟩ := ihH st hst hcl hmax
        cases hp : getHeadersM broker now fuel st with
        | mk σ r =>
            rw [hp] at h2 hσ
            dsimp only at h2 hσ
            subst h2
            have hval : getClientM broker now (fuel + 1) st = (σ, none) := by
              rw [getClientM, hcl]
              simp only [Bool.false_eq_true, if_false]
              rw [hp]
            rw [hval]
            exact ⟨rfl, rc, hσ⟩
      have stepL : ∀ (st : AsyncState) (last : Option ℕ),
          st.expiry_date / 1000 - now < 60 → st.hasClient = false →
          0 < st.max_retries → st.retry_count < st.max_retries →
          (setCredLoopM broker now (fuel + 1) st last).2 = none
          ∧ ∃ rc, (setCredLoopM broker now (fuel + 1) st last).1
              = { st with retry_count := rc } := by
        intro st last hst hcl hmax hlt
        obtain ⟨h2, rc, hσ⟩ := ihC st hst hcl hmax
        cases hp : getClientM broker now fuel st with
        | mk σ r =>
            rw [hp] at h2 hσ
            dsimp only at h2 hσ
            subst h2
            have hval : setCredLoopM broker now (fuel + 1) st last = (σ, none) := by
              rw [setCredLoopM, if_pos hlt, hp]
            rw [hval]
            exact ⟨rfl, rc, hσ⟩
      have stepS : ∀ st : AsyncState, st.expiry_date / 1000 - now < 60 →
          st.hasClient = false → 0 < st.max_retries →
          (setCredentialsM broker now (fuel + 1) st).2 = none
          ∧ ∃ rc, (setCredentialsM broker now (fuel + 1) st).1
              = { st with retry_count := rc } := by
        intro st hst hcl hmax
        obtain ⟨h2, rc, hσ⟩ := ihL { st with retry_count := 0 } none hst hcl hmax hmax
        cases hp : setCredLoopM broker now fuel { st with retry_count := 0 } none with
        | mk σ r =>
            rw [hp] at h2 hσ
            dsimp only at h2 hσ
            subst h2
            have hval : setCredentialsM broker now (fuel + 1) st = (σ, none) := by
              rw [setCredentialsM]
              exact hp
            rw [hval]
            exact ⟨rfl, rc, hσ⟩
      exact ⟨stepH, stepC, stepS, stepL⟩

/-- C1 is violated by the code: with a stale token (and no client object
open, the state in which `get_headers` is entered), `get_headers` never
completes for any amount of fuel — `get_headers` calls `set_credentials`,
whose loop enters `get_client`, which calls `get_headers` again before any
HTTP request can be issued — and the broker-call function is invoked zero
times, not once; under a cooperative scheduler the first of N concurrent
callers spins forever without yielding, so no caller receives headers or an
error, and no single-flight lock exists anywhere in the code. -/
theorem c1_no_single_flight (broker : ℕ → BrokerResponse) (now : ℚ)
    (fuel : ℕ) (st : AsyncState)
    (hstale : st.expiry_date / 1000 - now < 60)
    (hclient : st.hasClient = false)
    (hmax : 0 < st.max_retries) :
    (getHeadersM broker now fuel st).2 = none
    ∧ (getHeadersM broker now fuel st).1.brokerCalls = st.brokerCalls := by
  obtain ⟨h1, rc, h2⟩ :=
    (session_stale_diverges broker now fuel).1 st hstale hclient hmax
  refine ⟨h1, ?_⟩
  rw [h2]

/-- Concrete instance of `c1_no_single_flight`: a session with
`expiry_date = 0` at `now = 0` diverges on 7 units of fuel with zero broker
calls. -/
theorem c1_witness :
    ( ((⟨0, none, 0, 3, false, 0, [], "p", "u"⟩ : AsyncState).expiry_date / 1000
        - 0 < 60)
      ∧ (⟨0, none, 0, 3, false, 0, [], "p", "u"⟩ : AsyncState).hasClient = false
      ∧ 0 < (⟨0, none, 0, 3, false, 0, [], "p", "u"⟩ : AsyncState).max_retries )
    ∧ (getHeadersM (fun _ => ⟨200, ⟨"tok", 3600000, "proj"⟩⟩) 0 7
        ⟨0, none, 0, 3, false, 0, [], "p", "u"⟩).2 = none
    ∧ (getHeadersM (fun _ => ⟨200, ⟨"tok", 3600000, "proj"⟩⟩) 0 7
        ⟨0, none, 0, 3, false, 0, [], "p", "u"⟩).1.brokerCalls
      = (⟨0, none, 0, 3, false, 0, [], "p", "u"⟩ : AsyncState).brokerCalls := by
  have hs : ((⟨0, none, 0, 3, false, 0, [], "p", "u"⟩ : AsyncState).expiry_date / 1000
      - 0 < 60) := by norm_num
  have h := c1_no_single_flight (fun _ => ⟨200, ⟨"tok", 3600000, "proj"⟩⟩) 0 7
    ⟨0, none, 0, 3, false, 0, [], "p", "u"⟩ hs rfl (by norm_num)
  exact ⟨⟨hs, rfl, by norm_num⟩, h.1, h.2⟩

/-- C3 is violated by the code: invoking the refresh operation
(`set_credentials`) on a stale session with no open client does not
terminate — every amount of fuel is exhausted inside the
`get_client`/`get_headers` recursion — it issues zero HTTP attempts against
the broker (so never even reaches the point where the 3-attempt bound
would apply), and it performs no backoff sleep whatsoever: no call on the
refresh path sleeps, so the sleep log is left untouched. -/
theorem c3_refresh_divergence (broker : ℕ → BrokerResponse) (now : ℚ)
    (fuel : ℕ) (st : AsyncState)
    (hstale : st.expiry_date / 1000 - now < 60)
    (hclient : st.hasClient = false)
    (hmax : 0 < st.max_retries) :
    (setCredentialsM broker now fuel st).2 = none
    ∧ (setCredentialsM broker now fuel st).1.brokerCalls = st.brokerCalls
    ∧ (setCredentialsM broker now fuel st).1.sleeps = st.sleeps := by
  obtain ⟨h1, rc, h2⟩ :=
    (session_stale_diverges broker now fuel).2.2.1 st hstale hclient hmax
  refine ⟨h1, ?_, ?_⟩ <;> rw [h2]

/-- Concrete instance of `c3_refresh_divergence` at fuel 9. -/
theorem c3_witness :
    ( ((⟨0, none, 0, 3, false, 0, [], "p", "u"⟩ : AsyncState).expiry_date / 1000
        - 0 < 60)
      ∧ (⟨0, none, 0, 3, false, 0, [], "p", "u"⟩ : AsyncState).hasClient = false
      ∧ 0 < (⟨0, none, 0, 3, false, 0, [], "p", "u"⟩ : AsyncState).max_retries )
    ∧ (setCredentialsM (fun _ => ⟨500, ⟨"tok", 3600000, "proj"⟩⟩) 0 9
        ⟨0, none, 0, 3, false, 0, [], "p", "u"⟩).2 = none
    ∧ (setCredentialsM (fun _ => ⟨500, ⟨"tok", 3600000, "proj"⟩⟩) 0 9
        ⟨0, none, 0, 3, false, 0, [], "p", "u"⟩).1.brokerCalls
      = (⟨0, none, 0, 3, false, 0, [], "p", "u"⟩ : AsyncState).brokerCalls
    ∧ (setCredentialsM (fun _ => ⟨500, ⟨"tok", 3600000, "proj"⟩⟩) 0 9
        ⟨0, none, 0, 3, false, 0, [], "p", "u"⟩).1.sleeps
      = (⟨0, none, 0, 3, false, 0, [], "p", "u"⟩ : AsyncState).sleeps := by
  have hs : ((⟨0, none, 0, 3, false, 0, [], "p", "u"⟩ : AsyncState).expiry_date / 1000
      - 0 < 60) := by norm_num
  have h := c3_refresh_divergence (fun _ => ⟨500, ⟨"tok", 3600000, "proj"⟩⟩) 0 9
    ⟨0, none, 0, 3, false, 0, [], "p", "u"⟩ hs rfl (by norm_num)
  exact ⟨⟨hs, rfl, by norm_num⟩, h.1, h.2.1, h.2.2⟩

/-- C4 is violated by the code: in the very scenario the claim describes —
a refresh triggered on a stale session (no client open) whose broker
attempts would all fail with non-200 — the auth-broker error is never
raised at all.  `set_credentials` diverges inside the
`get_client`/`get_headers` recursion before its first GET, so the
while-else `ValueError` carrying the last status (async_client.py lines
172-176) is unreachable from the stale-triggered path and nothing
propagates to the caller; the stored credential bundle and expiry are
indeed left unchanged, but only because the refresh never returns. -/
theorem c4_refresh_error_unreachable (broker : ℕ → BrokerResponse) (now : ℚ)
    (fuel : ℕ) (st : AsyncState)
    (hstale : st.expiry_date / 1000 - now < 60)
    (hclient : st.hasClient = false)
    (hmax : 0 < st.max_retries)
    (hfail : ∀ i, (broker i).status ≠ 200) :
    (setCredentialsM broker now fuel st).2 = none
    ∧ (setCredentialsM broker now fuel st).1.credentials = st.credentials
    ∧ (setCredentialsM broker now fuel st).1.expiry_date = st.expiry_date := by
  obtain ⟨h1, rc, h2⟩ :=
    (session_stale_diverges broker now fuel).2.2.1 st hstale hclient hmax
  refine ⟨h1, ?_, ?_⟩ <;> rw [h2]

/-- Concrete instance of `c4_refresh_error_unreachable`: a broker answering
500 to every request, a stale session — for 8 units of fuel the refresh
produces no error and the stored bundle stays `none`. -/
theorem c4_witness :
    ( ((⟨0, none, 0, 3, false, 0, [], "p", "u"⟩ : AsyncState).expiry_date / 1000
        - 0 < 60)
      ∧ (⟨0, none, 0, 3, false, 0, [], "p", "u"⟩ : AsyncState).hasClient = false
      ∧ 0 < (⟨0, none, 0, 3, false, 0, [], "p", "u"⟩ : AsyncState).max_retries
      ∧ ∀ i : ℕ, ((fun _ => (⟨500, ⟨"t", 0, "pr"⟩⟩ : BrokerResponse)) i).status ≠ 200 )
    ∧ (setCredentialsM (fun _ => ⟨500, ⟨"t", 0, "pr"⟩⟩) 0 8
        ⟨0, none, 0, 3, false, 0, [], "p", "u"⟩).2 = none
    ∧ (setCredentialsM (fun _ => ⟨500, ⟨"t", 0, "pr"⟩⟩) 0 8
        ⟨0, none, 0, 3, false, 0, [], "p", "u"⟩).1.credentials
      = (⟨0, none, 0, 3, false, 0, [], "p", "u"⟩ : AsyncState).credentials
    ∧ (setCredentialsM (fun _ => ⟨500, ⟨"t", 0, "pr"⟩⟩) 0 8
        ⟨0, none, 0, 3, false, 0, [], "p", "u"⟩).1.expiry_date
      = (⟨0, none, 0, 3, false, 0, [], "p", "u"⟩ : AsyncState).expiry_date := by
  have hs : ((⟨0, none, 0, 3, false, 0, [], "p", "u"⟩ : AsyncState).expiry_date / 1000
      - 0 < 60) := by norm_num
  have h500 : (⟨500, ⟨"t", 0, "pr"⟩⟩ : BrokerResponse).status ≠ 200 := by decide
  have h := c4_refresh_error_unreachable (fun _ => ⟨500, ⟨"t", 0, "pr"⟩⟩) 0 8
    ⟨0, none, 0, 3, false, 0, [], "p", "u"⟩ hs rfl (by norm_num) (fun i => h500)
  exact ⟨⟨hs, rfl, by norm_num, fun i => h500⟩, h.1, h.2.1, h.2.2⟩
